import Mathlib

/-!
# Verification of the twitter proxy service

A shallow embedding of the core request-handling, dispatch and
error-normalization logic of the proxy service (README plus three
near-duplicate service variants: the original Express server, the hardened
serverless variant, and the plain serverless variant).  JavaScript values
that the code manipulates (parsed JSON bodies, thrown `Error` objects with
attached `response` metadata, header objects) are modelled explicitly,
including JS truthiness and the object-literal "later key wins" merge
semantics.  Machine-level concerns (the HTTP transport, streams, the
underlying platform client library) are treated as oracles: their outcomes
are parameters of the embedded functions, exactly as the code treats them.
-/

namespace MonitorProxy

/-! ## JSON values

A model of the JavaScript values produced by `JSON.parse` and consumed by
the service.  Numbers are restricted to integers (every numeric literal the
service ever inspects — HTTP status codes and twitter error `code` fields —
is an integer). -/

inductive Json where
  | null : Json
  | bool : Bool → Json
  | num : Int → Json
  | str : String → Json
  | arr : List Json → Json
  | obj : List (String × Json) → Json
  deriving Repr

/-- Whether a value is the JS `null`. -/
def Json.isNull : Json → Bool
  | .null => true
  | _ => false

/-- JS truthiness of a value: `null`, `false`, `0` and `""` are falsy,
everything else (including empty objects and arrays) is truthy. -/
def jsTruthy : Json → Bool
  | .null => false
  | .bool b => b
  | .num n => n != 0
  | .str s => s != ""
  | .arr _ => true
  | .obj _ => true

/-- Truthiness of a possibly-undefined value (`none` = JS `undefined`). -/
def jsTruthyOpt : Option Json → Bool
  | none => false
  | some j => jsTruthy j

/-- Truthiness of a possibly-undefined string ("" and `undefined` falsy). -/
def truthyStr : Option String → Bool
  | none => false
  | some s => s != ""

/-- JS `a || b` on strings where `a` may be undefined. -/
def jsOrStr (a : Option String) (b : String) : String :=
  match a with
  | some s => if s = "" then b else s
  | none => b

/-- First key lookup in a JS-object field list (`obj["k"]`; `none` =
`undefined`).  JS objects cannot hold duplicate keys, and our merge
operation below keeps keys unique, so first-match lookup is faithful. -/
def lookupKey (fields : List (String × Json)) (k : String) : Option Json :=
  match fields with
  | [] => none
  | (k', v) :: rest => if k' = k then some v else lookupKey rest k

/-- Member access `j.k` on a non-nullish value: fields of objects, and
`undefined` for primitives (which never throw on member access). -/
def jsMember (j : Json) (k : String) : Option Json :=
  match j with
  | .obj fields => lookupKey fields k
  | _ => none

/-- Optional-chaining index `x?.[0]`: `undefined` receivers and nulls give
`undefined`; arrays give their head, objects their "0" field, strings their
first character. -/
def jsIndexZero : Option Json → Option Json
  | none => none
  | some .null => none
  | some (.arr xs) => xs.head?
  | some (.obj fields) => lookupKey fields "0"
  | some (.str s) => match s.toList with
      | [] => none
      | c :: _ => some (.str (String.mk [c]))
  | some _ => none

mutual

/-- String interpolation of a JS value (template-literal semantics):
strings verbatim, numbers in decimal, `null` → "null", arrays as their
comma-joined elements, plain objects → "[object Object]". -/
def jsDisplay : Json → String
  | .null => "null"
  | .bool b => if b then "true" else "false"
  | .num n => toString n
  | .str s => s
  | .arr xs => jsDisplayList xs
  | .obj _ => "[object Object]"

/-- Comma-joined display of array elements (`Array.prototype.toString`);
a `null` element displays as the empty string. -/
def jsDisplayList : List Json → String
  | [] => ""
  | [x] => if x.isNull then "" else jsDisplay x
  | x :: xs => (if x.isNull then "" else jsDisplay x) ++ "," ++ jsDisplayList xs

end

/-- Interpolation of a possibly-undefined value (`undefined` prints as the
string "undefined" inside a template literal). -/
def jsDisplayOpt : Option Json → String
  | none => "undefined"
  | some j => jsDisplay j

/-- Interpolation of a possibly-undefined numeric field. -/
def displayOptNat : Option Nat → String
  | none => "undefined"
  | some n => toString n

/-- JSON string escaping used by `JSON.stringify`. -/
def jsonEscapeChar (c : Char) : List Char :=
  if c = '"' then ['\\', '"']
  else if c = '\\' then ['\\', '\\']
  else if c = '\n' then ['\\', 'n']
  else if c = '\t' then ['\\', 't']
  else if c = '\r' then ['\\', 'r']
  else [c]

def jsonEscape (s : String) : String :=
  String.mk (s.toList.flatMap jsonEscapeChar)

mutual

/-- `JSON.stringify` on our JSON model. -/
def jsStringify : Json → String
  | .null => "null"
  | .bool b => if b then "true" else "false"
  | .num n => toString n
  | .str s => "\"" ++ jsonEscape s ++ "\""
  | .arr xs => "[" ++ jsStringifyList xs ++ "]"
  | .obj fields => "\x7b" ++ jsStringifyFields fields ++ "\x7d"

def jsStringifyList : List Json → String
  | [] => ""
  | [x] => jsStringify x
  | x :: xs => jsStringify x ++ "," ++ jsStringifyList xs

def jsStringifyFields : List (String × Json) → String
  | [] => ""
  | [(k, v)] => "\"" ++ jsonEscape k ++ "\":" ++ jsStringify v
  | (k, v) :: rest => "\"" ++ jsonEscape k ++ "\":" ++ jsStringify v ++ "," ++ jsStringifyFields rest

end

/-! ## A JSON parser (model of `JSON.parse`)

Fuel-indexed recursive-descent parser.  Restricted to integer numeric
literals; the service never receives fractional numbers in the bodies it
inspects.  A parse returning `none` models `JSON.parse` throwing. -/

def jsonWs (c : Char) : Bool :=
  c = ' ' || c = '\n' || c = '\t' || c = '\r'

def skipWs (cs : List Char) : List Char :=
  cs.dropWhile jsonWs

/-- Parse the remainder of a JSON string literal after the opening quote,
handling the common escapes. -/
def parseStringRest : List Char → Option (String × List Char)
  | [] => none
  | '"' :: rest => some ("", rest)
  | '\\' :: e :: rest =>
      let cont (c : Char) : Option (String × List Char) :=
        match parseStringRest rest with
        | some (s, r) => some (String.mk (c :: s.toList), r)
        | none => none
      if e = '"' then cont '"'
      else if e = '\\' then cont '\\'
      else if e = '/' then cont '/'
      else if e = 'n' then cont '\n'
      else if e = 't' then cont '\t'
      else if e = 'r' then cont '\r'
      else none
  | c :: rest =>
      match parseStringRest rest with
      | some (s, r) => some (String.mk (c :: s.toList), r)
      | none => none

/-- Numeric value of a run of decimal digits. -/
def digitsToNat (ds : List Char) : Nat :=
  ds.foldl (fun acc c => acc * 10 + (c.toNat - '0'.toNat)) 0

/-- Parse a JSON integer literal (optional minus sign, decimal digits). -/
def parseIntLit (cs : List Char) : Option (Int × List Char) :=
  match cs with
  | '-' :: rest =>
      let ds := rest.takeWhile Char.isDigit
      if ds.isEmpty then none
      else some (-(digitsToNat ds : Int), rest.dropWhile Char.isDigit)
  | _ =>
      let ds := cs.takeWhile Char.isDigit
      if ds.isEmpty then none
      else some ((digitsToNat ds : Int), cs.dropWhile Char.isDigit)

mutual

def parseVal : Nat → List Char → Option (Json × List Char)
  | 0, _ => none
  | fuel + 1, cs =>
    match skipWs cs with
    | [] => none
    | '\x7b' :: r =>
        (match skipWs r with
         | '\x7d' :: r2 => some (.obj [], r2)
         | r2 =>
            match parseMembers fuel r2 with
            | some (fields, r3) => some (.obj fields, r3)
            | none => none)
    | '[' :: r =>
        (match skipWs r with
         | ']' :: r2 => some (.arr [], r2)
         | r2 =>
            match parseElems fuel r2 with
            | some (xs, r3) => some (.arr xs, r3)
            | none => none)
    | '"' :: r =>
        (match parseStringRest r with
         | some (s, r2) => some (.str s, r2)
         | none => none)
    | 't' :: 'r' :: 'u' :: 'e' :: r => some (.bool true, r)
    | 'f' :: 'a' :: 'l' :: 's' :: 'e' :: r => some (.bool false, r)
    | 'n' :: 'u' :: 'l' :: 'l' :: r => some (.null, r)
    | other =>
        match parseIntLit other with
        | some (n, r) => some (.num n, r)
        | none => none

def parseMembers : Nat → List Char → Option (List (String × Json) × List Char)
  | 0, _ => none
  | fuel + 1, cs =>
    match skipWs cs with
    | '"' :: r =>
        (match parseStringRest r with
         | some (k, r2) =>
            (match skipWs r2 with
             | ':' :: r3 =>
                (match parseVal fuel r3 with
                 | some (v, r4) =>
                    (match skipWs r4 with
                     | ',' :: r5 =>
                        (match parseMembers fuel r5 with
                         | some (fields, r6) => some ((k, v) :: fields, r6)
                         | none => none)
                     | '\x7d' :: r5 => some ([(k, v)], r5)
                     | _ => none)
                 | none => none)
             | _ => none)
         | none => none)
    | _ => none

def parseElems : Nat → List Char → Option (List Json × List Char)
  | 0, _ => none
  | fuel + 1, cs =>
    match parseVal fuel cs with
    | some (v, r) =>
        (match skipWs r with
         | ',' :: r2 =>
            (match parseElems fuel r2 with
             | some (xs, r3) => some (v :: xs, r3)
             | none => none)
         | ']' :: r2 => some ([v], r2)
         | _ => none)
    | none => none

end

/-- `JSON.parse`: `none` models the parse throwing a `SyntaxError`. -/
def jsonParse (s : String) : Option Json :=
  match parseVal (s.length + 1) s.toList with
  | some (v, rest) => if (skipWs rest).isEmpty then some v else none
  | none => none

/-! ## Small string utilities -/

/-- JS `s.substring(0, n)`: the first `n` characters. -/
def strTake (s : String) (n : Nat) : String :=
  String.mk (s.toList.take n)

/-- JS `String.prototype.startsWith`. -/
def strStartsWith (s pre : String) : Bool :=
  pre.toList.isPrefixOf s.toList

/-- Whether `pat` occurs as a contiguous run inside `l`. -/
def listHasInfix (pat : List Char) : List Char → Bool
  | [] => pat.isEmpty
  | c :: rest => pat.isPrefixOf (c :: rest) || listHasInfix pat rest

/-- JS `String.prototype.includes`: substring containment. -/
def hasSubstr (s pat : String) : Bool :=
  listHasInfix pat.toList s.toList

/-- First match of the regex `HTTP (\d+)` inside a string: the maximal
digit run immediately following the first occurrence of "HTTP " that is
followed by at least one digit (the scan advances one character at a time,
exactly like the regex engine). -/
def findHttpStatus : List Char → Option Nat
  | [] => none
  | c :: rest =>
      match c :: rest with
      | 'H' :: 'T' :: 'T' :: 'P' :: ' ' :: d :: tl =>
          if d.isDigit then some (digitsToNat (d :: tl.takeWhile Char.isDigit))
          else findHttpStatus rest
      | _ => findHttpStatus rest

def extractHttpStatus (s : String) : Option Nat :=
  findHttpStatus s.toList

/-! ## Thrown-error model

A JS throwable as the service sees it: a `message` (possibly `undefined`,
for non-`Error` throwables), optional attached `response` metadata (the
error-attachment convention of the client library and of the service's own
enhanced errors), an optional `cause`, and the library's optional
structured `data` / `errors` attachments. -/

/-- A `response.body` attachment: either a raw string or an already
structured (non-string) JS value. -/
inductive BodyVal where
  | strVal : String → BodyVal
  | jsonVal : Json → BodyVal
  deriving Repr

def bodyValTruthy : BodyVal → Bool
  | .strVal s => s != ""
  | .jsonVal j => jsTruthy j

structure ErrResponse where
  status : Option Nat := none
  statusText : Option String := none
  url : Option String := none
  body : Option BodyVal := none
  /-- Outcome of `readResponseBody(response)` on this response: the
  function totalizes stream/JSON failures to `""`, so a plain string. -/
  readBody : String := ""
  deriving Repr

structure JsError where
  /-- `none` models an `undefined` message field. -/
  messageOpt : Option String := none
  response : Option ErrResponse := none
  /-- The `causeMsg` the code would compute from a truthy `error.cause`
  (`none` when `error.cause` is absent or falsy). -/
  cause : Option String := none
  data : Option Json := none
  errors : Option Json := none
  deriving Repr

/-- A JS exception raised by the embedded code itself (dereferencing a
member of `undefined`/`null`). -/
inductive JsExc where
  | typeError : JsExc
  deriving Repr, DecidableEq

/-- The normalized `{status, message, body}` triple produced by
`parseError` (`body` is `Json.null` when no structured body was kept). -/
structure NormalizedError where
  status : Nat
  message : String
  body : Json
  deriving Repr

/-- Optional-chained member access `x?.k`. -/
def jsOptMember (o : Option Json) (k : String) : Option Json :=
  match o with
  | none => none
  | some .null => none
  | some j => jsMember j k

/-- Whether `error.response?.status` is truthy. -/
def respStatusTruthy (e : JsError) : Bool :=
  match e.response.bind (fun r => r.status) with
  | some n => n != 0
  | none => false

/-! ## The error normalizer (`parseError`, hardened variant)

Embedded from the hardened serverless variant:
`const status = error.response?.status || parseInt(error.message.match(/HTTP (\d+)/)?.[1]) || 500;`
then the cause augmentation, then the structured-body extraction inside a
`try`.  Exceptions the JS code itself can raise are threaded explicitly:
`error.message.match` on an `undefined` message throws a `TypeError` (it is
the only throw site outside a `try`). -/

/-- The `parseInt(error.message.match(/HTTP (\d+)/)?.[1]) || 500` fallback:
evaluating it dereferences `error.message`, so an `undefined` message
throws a `TypeError` here. -/
def parseErrorStatusFallback (e : JsError) : Except JsExc Nat :=
  match e.messageOpt with
  | none => .error .typeError
  | some m =>
      match extractHttpStatus m with
      | some n => if n != 0 then .ok n else .ok 500
      | none => .ok 500

def parseErrorStatus (e : JsError) : Except JsExc Nat :=
  match e.response.bind (fun r => r.status) with
  | some n => if n != 0 then .ok n else parseErrorStatusFallback e
  | none => parseErrorStatusFallback e

/-- The remote-detail extraction applied to a parsed body `j` (the inside
of `parseError`'s `try` after `JSON.parse`): member accesses on a `null`
body throw inside the `try` and are caught, leaving the assigned body. -/
def extractFromJson (status : Nat) (message : String) (j : Json) : String × Json :=
  match j with
  | .null => (message, .null)
  | _ =>
    let apiErr : Option Json := jsIndexZero (jsMember j "errors")
    let apiErrMsg : Option Json := jsOptMember apiErr "message"
    let apiErrDetail : Option Json := jsOptMember apiErr "detail"
    if jsTruthyOpt apiErrMsg || jsTruthyOpt apiErrDetail then
      let detail := if jsTruthyOpt apiErrMsg then jsDisplayOpt apiErrMsg else jsDisplayOpt apiErrDetail
      let codeV : Option Json := jsOptMember apiErr "code"
      let codePart := if jsTruthyOpt codeV then " (code=" ++ jsDisplayOpt codeV ++ ")" else ""
      ("HTTP " ++ toString status ++ ": " ++ detail ++ codePart, j)
    else if jsTruthyOpt (jsMember j "error") then
      ("HTTP " ++ toString status ++ ": " ++ jsDisplay (jsMember j "error" |>.getD .null), j)
    else (message, j)

/-- The whole `try { body = ... } catch {}` block of `parseError`: a string
body goes through `JSON.parse` (a parse failure is caught with `body` still
unassigned), a non-string body is used directly. -/
def extractDetail (status : Nat) (message : String) (bv : BodyVal) : String × Json :=
  match bv with
  | .strVal s =>
      match jsonParse s with
      | none => (message, .null)
      | some j => extractFromJson status message j
  | .jsonVal j => extractFromJson status message j

/-- Everything in `parseError` after the status computation (total). -/
def parseErrorRest (e : JsError) (status : Nat) : NormalizedError :=
  let message := jsOrStr e.messageOpt "API调用失败"
  let message :=
    match e.cause with
    | some causeMsg =>
        if causeMsg != "" && !(hasSubstr message causeMsg) then
          message ++ " (原因: " ++ causeMsg ++ ")"
        else message
    | none => message
  match e.response with
  | some r =>
      match r.body with
      | some bv =>
          if bodyValTruthy bv then
            let (m, b) := extractDetail status message bv
            ⟨status, m, b⟩
          else ⟨status, message, .null⟩
      | none => ⟨status, message, .null⟩
  | none => ⟨status, message, .null⟩

/-- `parseError` (hardened variant, the error normalizer): returns the
normalized triple, or the JS exception the function itself raises. -/
def parseError (e : JsError) : Except JsExc NormalizedError :=
  match parseErrorStatus e with
  | .error ex => .error ex
  | .ok st => .ok (parseErrorRest e st)

/-! ## URL simplification (packaged-method invoker)

`new URL(url)` is modelled for plain `http(s)` URLs: origin = scheme plus
host (up to the first `/`), pathname = from that `/` up to `?` or `#` (or
`/` when the path is empty); an empty host or a non-http scheme models the
constructor throwing. -/

def urlParseTail (scheme : String) (rest : List Char) : Option (String × String) :=
  let host := rest.takeWhile (fun c => c != '/')
  if host.isEmpty then none
  else
    let after := rest.dropWhile (fun c => c != '/')
    let path := after.takeWhile (fun c => c != '?' && c != '#')
    some (scheme ++ String.mk host, if path.isEmpty then "/" else String.mk path)

def urlOriginPathname (u : String) : Option (String × String) :=
  if "https://".toList.isPrefixOf u.toList then
    urlParseTail "https://" (u.toList.drop 8)
  else if "http://".toList.isPrefixOf u.toList then
    urlParseTail "http://" (u.toList.drop 7)
  else none

/-- The URL simplification of the packaged-method invoker: a captured URL
longer than 200 characters is replaced by origin + pathname + a redaction
marker; a URL the `URL` constructor rejects is kept whole (the `catch`
branch), and so is any URL of at most 200 characters. -/
def simplifyUrl (url : Option String) : Option String :=
  match url with
  | none => none
  | some u =>
      if u.length > 200 then
        match urlOriginPathname u with
        | some (origin, pathname) => some (origin ++ pathname ++ "?[参数已省略]")
        | none => some u
      else some u

/-! ## The packaged-method invoker (`invokeMethod`, hardened variant)

The underlying client call `fn(client, params)` is an external oracle; its
outcome (a value, or a thrown error) is a parameter.  The raw-response
capture installed by `createClient`'s wrapped `fetchApi` is modelled as a
`Capture` record. -/

/-- The `API_METHODS` registry of the hardened variant. -/
def apiMethodNames : List String :=
  ["getUserByScreenName", "getUserByRestId", "getHomeLatestTimeline",
   "getUserTweets", "getTweetDetail", "getFollowing",
   "postCreateFriendships", "postDestroyFriendships",
   "postCreateRetweet", "postDeleteRetweet"]

/-- The `_responseCapture` record: fields are `null` until the wrapped
`fetchApi` observes a response. -/
structure Capture where
  status : Option Nat := none
  statusText : Option String := none
  url : Option String := none
  /-- `some (some txt)`: `_clonedResponse` present and `.text()` yields
  `txt`; `some none`: present but reading throws (caught and ignored);
  `none`: `_clonedResponse` is `null`. -/
  cloned : Option (Option String) := none
  deriving Repr

/-- The library-internal crash signatures the hardened invoker special-cases. -/
def crashSignature (msg : String) : Bool :=
  hasSubstr msg "Cannot read properties of undefined" ||
  hasSubstr msg "Denied by access control"

/-- The error markers looked up in the captured body preview: the quoted
JSON keys `"errors"` and `"code"`, and the bare words `suspended` and
`locked`. -/
def hasErrorIndicator (preview : String) : Bool :=
  hasSubstr preview "\"errors\"" || hasSubstr preview "\"code\"" ||
  hasSubstr preview "suspended" || hasSubstr preview "locked"

/-- The capture readout of the crash branch: the diagnostic suffix, the raw
status code, and the raw body preview (first 500 characters of the cloned
response, when present and readable). -/
def crashDiag (cap : Capture) : String × Option Nat × Option String :=
  match cap.status with
  | none => ("", none, none)
  | some st =>
      let base := " [HTTP " ++ toString st ++ " " ++ (cap.statusText.getD "") ++ "]"
      match cap.cloned with
      | some (some txt) =>
          let preview := strTake txt 500
          (base ++ " body: " ++ strTake preview 200, some st, some preview)
      | _ => (base, some st, none)

/-- The exact condition under which the hardened invoker's crash branch
returns the neutral empty result: captured status 200, a non-empty body
preview, and no error indicator in the preview. -/
def heuristicFires (cap : Capture) : Bool :=
  match cap.status, cap.cloned with
  | some 200, some (some txt) =>
      let preview := strTake txt 500
      preview != "" && !(hasErrorIndicator preview)
  | _, _ => false

/-- The crash-signature branch of `invokeMethod`: consult the capture, and
either return the neutral empty result (status 200, non-empty marker-free
body preview) or throw the diagnostic "parse error" failure. -/
def invokeMethodCrash (errorMsg : String) (cap : Capture) : Except JsError Json :=
  let (diag, rawStatusCode, rawBodyPreview) := crashDiag cap
  if rawStatusCode == some 200 && (rawBodyPreview.getD "") != "" &&
     !(hasErrorIndicator (rawBodyPreview.getD "")) then
    .ok Json.null
  else
    .error { messageOpt := some ("API响应异常，数据解析失败" ++ diag ++ "[" ++ errorMsg ++ "]"),
             response := some { status := some (match rawStatusCode with
                                                | some 0 => 500
                                                | some n => n
                                                | none => 500),
                                statusText := some "API Response Parse Error",
                                body := rawBodyPreview.map BodyVal.strVal } }

/-- The error-normalization branch of `invokeMethod`: a failure without
response metadata propagates unchanged; one with metadata is rethrown as an
enhanced error carrying status, a body obtained from `data`/`errors`/the
stream, and the simplified URL. -/
def invokeMethodNormalize (e : JsError) : Except JsError Json :=
  match e.response with
  | none => .error e
  | some r =>
      let body : String :=
        if jsTruthyOpt e.data then jsStringify (e.data.getD .null)
        else if jsTruthyOpt e.errors then jsStringify (.obj [("errors", e.errors.getD .null)])
        else r.readBody
      .error { messageOpt := some ("HTTP " ++ displayOptNat r.status ++ ": " ++
                                   jsOrStr r.statusText "Unknown"),
               response := some { status := r.status, statusText := r.statusText,
                                  url := simplifyUrl r.url,
                                  body := some (.strVal body) } }

/-- `invokeMethod` (hardened variant): registry lookup, the crash-signature
heuristic, and the error-normalization branch. -/
def invokeMethod (method : String) (cap : Capture) (callResult : Except JsError Json) :
    Except JsError Json :=
  if !(apiMethodNames.contains method) then
    .error { messageOpt := some ("不支持的API方法: " ++ method) }
  else
    match callResult with
    | .ok v => .ok v
    | .error e =>
      let errorMsg := e.messageOpt.getD ""
      if crashSignature errorMsg then invokeMethodCrash errorMsg cap
      else invokeMethodNormalize e

/-! ## JS object construction (header maps)

A JS object as an ordered field list with unique keys.  `objInsert` is a
property write (or an object-literal field): an existing key keeps its
position and gets the new value, a new key is appended. -/

abbrev ObjMap := List (String × Json)

def objInsert (m : ObjMap) (k : String) (v : Json) : ObjMap :=
  match m with
  | [] => [(k, v)]
  | (k', v') :: rest => if k' = k then (k', v) :: rest else (k', v') :: objInsert rest k v

/-- The own enumerable entries a value contributes to a spread `{...j}` (or
to `Object.entries(j)`): object fields, indexed characters of a string,
indexed elements of an array, nothing for primitives. -/
def spreadPairs : Json → ObjMap
  | .obj fields => fields
  | .str s => (s.toList.enum).map (fun ic => (toString ic.1, Json.str (String.mk [ic.2])))
  | .arr xs => (xs.enum).map (fun iv => (toString iv.1, iv.2))
  | _ => []

/-- Spreading a possibly-undefined value into an object under construction
(`{...undefined}` and `{...null}` contribute nothing). -/
def spreadInto (m : ObjMap) (j : Option Json) : ObjMap :=
  match j with
  | none => m
  | some v => (spreadPairs v).foldl (fun acc kv => objInsert acc kv.1 kv.2) m

/-! ## The raw-passthrough executor (`directRequest`, hardened variant)

The `fetch` transport is an oracle: its response is a parameter.  The
transaction-id generator is the external pure collaborator
`(method, path, verification, animationKey) -> token | null`, abstracted as
an optional token. -/

/-- The outgoing request headers of `directRequest` (hardened variant):
`{ ...headers.api, ...extraHeaders, 'x-twitter-auth-type': 'OAuth2Session',
'x-csrf-token': ct0Token, cookie: auth_token=...; ct0=...; }`. -/
def directRequestHeaders (headersApi : Option Json) (extraHeaders : Option Json)
    (authToken ct0Token : String) : ObjMap :=
  let m := spreadInto (spreadInto [] headersApi) extraHeaders
  let m := objInsert m "x-twitter-auth-type" (.str "OAuth2Session")
  let m := objInsert m "x-csrf-token" (.str ct0Token)
  objInsert m "cookie" (.str ("auth_token=" ++ authToken ++ "; ct0=" ++ ct0Token ++ ";"))

/-- The outgoing request headers of `makeDirectRequest` (original Express
variant): the same spread followed by the same three assignments. -/
def makeDirectRequestHeaders (headersApi : Option Json) (extraHeaders : Option Json)
    (authToken ct0Token : String) : ObjMap :=
  let m := spreadInto (spreadInto [] headersApi) extraHeaders
  let m := objInsert m "x-twitter-auth-type" (.str "OAuth2Session")
  let m := objInsert m "x-csrf-token" (.str ct0Token)
  objInsert m "cookie" (.str ("auth_token=" ++ authToken ++ "; ct0=" ++ ct0Token ++ ";"))

/-! URL construction, with `URLSearchParams` serialization
(`application/x-www-form-urlencoded`: unreserved characters kept, space as
`+`, everything else percent-encoded as UTF-8 bytes). -/

def hexDigitChar (n : Nat) : Char :=
  if n < 10 then Char.ofNat ('0'.toNat + n) else Char.ofNat ('A'.toNat + n - 10)

def percentByte (b : UInt8) : String :=
  String.mk ['%', hexDigitChar (b.toNat / 16), hexDigitChar (b.toNat % 16)]

def formUrlEncodeChar (c : Char) : String :=
  if c.isAlphanum || c = '*' || c = '-' || c = '.' || c = '_' then String.mk [c]
  else if c = ' ' then "+"
  else String.join (((String.mk [c]).toUTF8.toList).map percentByte)

def formUrlEncode (s : String) : String :=
  String.join (s.toList.map formUrlEncodeChar)

/-- `URLSearchParams` built by appending every entry whose value is not
nullish (`v != null` with loose equality), then serialized. -/
def urlSearchParamsToString (entries : ObjMap) : String :=
  String.intercalate "&"
    ((entries.filter (fun kv => !(kv.2.isNull))).map
      (fun kv => formUrlEncode kv.1 ++ "=" ++ formUrlEncode (jsDisplay kv.2)))

/-- The query-string suffix handling shared by both raw executors:
`if (queryParams) { ...; if (params.toString()) url += ? + params }`. -/
def appendQuery (url : String) (queryParams : Option Json) : String :=
  if jsTruthyOpt queryParams then
    let qs := urlSearchParamsToString (spreadPairs (queryParams.getD .null))
    if qs = "" then url else url ++ "?" ++ qs
  else url

/-- The request URL of `directRequest` (hardened variant): the documented
routing rule (`/i/api/` prefix → web origin, otherwise REST origin) plus
the serialized query parameters. -/
def directRequestUrl (endpoint : String) (queryParams : Option Json) : String :=
  let baseUrl := if strStartsWith endpoint "/i/api/" then "https://x.com" else "https://api.x.com"
  appendQuery (baseUrl ++ endpoint) queryParams

/-- The request URL of the plain serverless variant's `directRequest`:
identical except that the base origin is always `https://api.x.com`. -/
def directRequestUrlNoRoute (endpoint : String) (queryParams : Option Json) : String :=
  appendQuery ("https://api.x.com" ++ endpoint) queryParams

/-- A `fetch` response as the raw executor consumes it. -/
structure FetchResp where
  ok : Bool
  status : Nat := 200
  statusText : String := ""
  url : String := ""
  /-- Outcome of `response.text()` (`none`: the read rejects; the chained
  `.catch` turns that into `""`). -/
  textResult : Option String := none
  /-- Outcome of `response.json()` (`none`: reading or parsing fails). -/
  jsonResult : Option Json := none
  /-- Message of the rejection when `response.json()` fails. -/
  jsonErrMsg : String := ""
  deriving Repr

/-- The request envelope as destructured from `req.body` (every field may
be absent). -/
structure Envelope where
  authToken : Option String := none
  ct0Token : Option String := none
  headers : Option Json := none
  flag : Option Json := none
  pairData : Option Json := none
  apiMethod : Option String := none
  apiParams : Option Json := none
  endpoint : Option String := none
  queryParams : Option Json := none
  method : Option String := none
  body : Option Json := none
  extraHeaders : Option Json := none

/-- Template interpolation of a possibly-undefined string. -/
def optDisplayStr (o : Option String) : String :=
  o.getD "undefined"

/-- The outgoing HTTP request `directRequest` would issue. -/
structure OutgoingRequest where
  url : String
  httpMethod : String
  reqHeaders : ObjMap
  reqBody : Option String := none

/-- The outgoing request assembled by `directRequest` (hardened variant)
after the CSRF guard: headers, routed URL, optional transaction-id header,
optional serialized body with its content-type header.  `txId` is the
outcome of the external transaction-id collaborator. -/
def directRequestOutgoing (env : Envelope) (txId : Option String) : OutgoingRequest :=
  let reqHeaders := directRequestHeaders (jsOptMember env.headers "api") env.extraHeaders
    (optDisplayStr env.authToken) (optDisplayStr env.ct0Token)
  let url := directRequestUrl (optDisplayStr env.endpoint) env.queryParams
  let reqHeaders :=
    match txId with
    | some t => if t != "" then objInsert reqHeaders "x-client-transaction-id" (.str t) else reqHeaders
    | none => reqHeaders
  match env.body with
  | some b =>
      if jsTruthy b then
        { url := url, httpMethod := (optDisplayStr env.method).toUpper,
          reqHeaders := objInsert reqHeaders "content-type" (.str "application/json"),
          reqBody := some (match b with | .str s => s | other => jsStringify other) }
      else
        { url := url, httpMethod := (optDisplayStr env.method).toUpper, reqHeaders := reqHeaders }
  | none => { url := url, httpMethod := (optDisplayStr env.method).toUpper, reqHeaders := reqHeaders }

/-- The error `directRequest` throws on a non-success response: status,
status text, the response's URL verbatim, and the best-effort body text. -/
def directRequestFail (resp : FetchResp) : JsError :=
  { messageOpt := some ("HTTP " ++ toString resp.status ++ ": " ++ resp.statusText),
    response := some { status := some resp.status, statusText := some resp.statusText,
                       url := some resp.url,
                       body := some (.strVal (resp.textResult.getD "")) } }

/-- `directRequest` after its CSRF guard: issue the call, turn a
non-success status into a thrown error, parse a success body. -/
def directRequestAfterCt0 (resp : FetchResp) : Except JsError Json :=
  if !resp.ok then .error (directRequestFail resp)
  else
    match resp.jsonResult with
    | some j => .ok j
    | none => .error { messageOpt := some resp.jsonErrMsg }

/-- `directRequest` (hardened variant): the distinct fail-fast CSRF check,
then the request/response handling. -/
def directRequest (env : Envelope) (resp : FetchResp) : Except JsError Json :=
  if !(truthyStr env.ct0Token) then .error { messageOpt := some "CT0令牌缺失" }
  else directRequestAfterCt0 resp

/-! ## Token authentication middleware (hardened variant) -/

/-- JS `String.prototype.replace` with a string pattern: remove the first
occurrence of the pattern. -/
def replaceFirstAux (pat : List Char) : List Char → List Char
  | [] => []
  | c :: rest =>
      if pat.isPrefixOf (c :: rest) then (c :: rest).drop pat.length
      else c :: replaceFirstAux pat rest

def jsReplaceFirst (s pat : String) : String :=
  String.mk (replaceFirstAux pat.toList s.toList)

inductive AuthResult where
  | serverError500 : AuthResult
  | unauthorized401 : AuthResult
  | proceed : AuthResult
  deriving Repr, DecidableEq

/-- The token-authentication middleware: a missing configured token is a
500 for every request; otherwise the `authorization` header with its first
`Bearer ` occurrence removed must equal the configured token, or the
request is rejected with 401 before any business logic. -/
def authMiddleware (apiToken : String) (authHeader : Option String) : AuthResult :=
  if apiToken = "" then .serverError500
  else
    match authHeader with
    | none => .unauthorized401
    | some h => if jsReplaceFirst h "Bearer " = apiToken then .proceed else .unauthorized401

/-! ## The proxy handler (hardened variant) -/

inductive DispatchStep where
  | reject400 : String → DispatchStep
  | packaged : String → DispatchStep
  | raw : DispatchStep
  deriving Repr, DecidableEq

/-- The handler's envelope validation and path selection: the three guard
clauses, then `if (apiMethod) ... else directRequest`. -/
def validateDispatch (env : Envelope) : DispatchStep :=
  if !(truthyStr env.authToken) || !(truthyStr env.ct0Token) then
    .reject400 "缺少: authToken, ct0Token"
  else if !(jsTruthyOpt env.headers) || !(jsTruthyOpt env.flag) then
    .reject400 "缺少: headers, flag"
  else if !(truthyStr env.apiMethod) && !(truthyStr env.endpoint) then
    .reject400 "需提供 apiMethod 或 endpoint"
  else if truthyStr env.apiMethod then .packaged (env.apiMethod.getD "")
  else .raw

/-- The JSON failure response assembled in the handler's `catch`: status is
the normalized status when it is a valid HTTP status (400–599), else 500;
the error text is prefixed with the method/endpoint label.  A JS exception
raised inside the `catch` itself would escape to the framework's default
500 handler. -/
structure HttpResp where
  status : Nat
  success : Bool
  error : Option String := none
  statusCode : Option Nat := none
  data : Option Json := none
  deriving Repr

def proxyErrorResponse (e : JsError) (label : String) : HttpResp :=
  match parseError e with
  | .error _ => { status := 500, success := false }
  | .ok n =>
      { status := if 400 ≤ n.status && n.status < 600 then n.status else 500,
        success := false,
        error := some ("[" ++ label ++ "] " ++ n.message),
        statusCode := some n.status }

/-- The full `POST /api/twitter/proxy` handler body (hardened variant)
past the authentication middleware.  The two remote-call oracles are
parameters: `callResult` is the underlying client call's outcome on the
packaged path, `rawResp` the `fetch` response on the raw path. -/
def handleProxy (env : Envelope) (callResult : Except JsError Json) (cap : Capture)
    (rawResp : FetchResp) : HttpResp :=
  let label := jsOrStr env.apiMethod (jsOrStr env.endpoint "unknown")
  match validateDispatch env with
  | .reject400 msg => { status := 400, success := false, error := some msg }
  | .packaged m =>
      match invokeMethod m cap callResult with
      | .ok v => { status := 200, success := true, data := some v }
      | .error e => proxyErrorResponse e label
  | .raw =>
      match directRequest env rawResp with
      | .ok v => { status := 200, success := true, data := some v }
      | .error e => proxyErrorResponse e label

/-! ## Concrete inputs used by individual claims -/

/-- The simulated remote 429 body of the spec's testable property. -/
def body429str : String := "\x7b\"errors\":[\x7b\"message\":\"Rate limit exceeded\",\"code\":88\x7d]\x7d"

/-- The parse of `body429str`. -/
def body429json : Json :=
  .obj [("errors", .arr [.obj [("message", .str "Rate limit exceeded"), ("code", .num 88)]])]

/-- The "Authorization bearer token" of the claim, in its RFC 6750 shape:
the credentials after the `Bearer ` scheme prefix, `none` when the header
does not carry the Bearer scheme. -/
def bearerSchemeToken (h : String) : Option String :=
  if strStartsWith h "Bearer " then some (String.mk (h.toList.drop 7)) else none

/-- A well-formed envelope that supplies both dispatch fields (C4). -/
def envC4 : Envelope := { authToken := some "a", ct0Token := some "c", headers := some (.obj []), flag := some (.obj []), apiMethod := some "getUserTweets", endpoint := some "/1.1/friends" }

/-- A well-formed raw-path envelope (C10's witness). -/
def envC10 : Envelope := { authToken := some "a", ct0Token := some "c", headers := some (.obj []), flag := some (.obj []), endpoint := some "/1.1/x" }

/-- A library-internal decode crash, as thrown by the client package (C2). -/
def crashErrC2 : JsError := { messageOpt := some "Cannot read properties of undefined (reading 'user')" }

/-- A capture whose 200-response body is the bare word `errors` (C2). -/
def capC2 : Capture := { status := some 200, cloned := some (some "errors") }

/-- A capture of a marker-free 200 response (C2's witness). -/
def capC2w : Capture := { status := some 200, cloned := some (some "\x7b\"data\":null\x7d") }

/-- A well-formed envelope naming an unknown packaged method (C3). -/
def envC3 : Envelope := { authToken := some "a", ct0Token := some "c", headers := some (.obj []), flag := some (.obj []), apiMethod := some "fooMethod" }

/-- A captured request URL longer than 200 characters whose query string
carries a secret (C7). -/
def urlC7 : String := "https://api.x.com/1.1/friendships/create.json?" ++ String.mk (List.replicate 170 'q') ++ "&secret=hunter2"

/-- The failing fetch response carrying `urlC7` (C7). -/
def respC7 : FetchResp := { ok := false, status := 404, statusText := "Not Found", url := urlC7, textResult := some "{}" }

/-! ## Theorems -/

theorem lookupKey_objInsert_self (m : ObjMap) (k : String) (v : Json) :
    lookupKey (objInsert m k v) k = some v := by
  induction m with
  | nil => simp [objInsert, lookupKey]
  | cons kv rest ih =>
      obtain ⟨k', v'⟩ := kv
      by_cases h : k' = k
      · simp [objInsert, h, lookupKey]
      · simp [objInsert, h, lookupKey, ih]

theorem lookupKey_objInsert_ne (m : ObjMap) (k k' : String) (v : Json) (h : k' ≠ k) :
    lookupKey (objInsert m k' v) k = lookupKey m k := by
  induction m with
  | nil => simp [objInsert, lookupKey, h]
  | cons kv rest ih =>
      obtain ⟨k₀, v₀⟩ := kv
      by_cases h₀ : k₀ = k'
      · subst h₀
        simp [objInsert, lookupKey, h]
      · simp [objInsert, h₀, lookupKey, ih]

theorem strToList_eq_data (s : String) : s.toList = s.data := rfl

theorem listHasInfix_iff {pat l : List Char} : listHasInfix pat l = true ↔ pat <:+: l := by
  induction l with
  | nil => simp [listHasInfix]
  | cons c rest ih =>
      simp only [listHasInfix, Bool.or_eq_true, List.isPrefixOf_iff_prefix, ih]
      exact (List.infix_cons_iff).symm

theorem hasSubstr_iff {s pat : String} : hasSubstr s pat = true ↔ pat.toList <:+: s.toList := by
  simp [hasSubstr, listHasInfix_iff]

theorem append_ne_empty_left {a : String} (b : String) (h : a ≠ "") : a ++ b ≠ "" := by
  intro hc
  apply h
  have hd := congrArg String.data hc
  simp only [String.data_append] at hd
  have : a.data = [] := (List.append_eq_nil.mp hd).1
  cases a
  simp_all

/-- C1: for a failed call whose error carries response metadata with
status 429 and the body
`{"errors":[{"message":"Rate limit exceeded","code":88}]}`, the error
normalizer returns statusCode 429 and the message exactly
`HTTP 429: Rate limit exceeded (code=88)` — whatever the error's original
message, cause, status text and URL were. -/
theorem C1_parseError_429 (mo : Option String) (c : Option String)
    (st : Option String) (u : Option String) :
    parseError { messageOpt := mo, cause := c,
                 response := some { status := some 429, statusText := st, url := u,
                                    body := some (.strVal body429str) } } =
      .ok { status := 429, message := "HTTP 429: Rate limit exceeded (code=88)",
            body := body429json } := by
  have hex : ∀ msg : String, extractDetail 429 msg (.strVal body429str) =
      ("HTTP 429: Rate limit exceeded (code=88)", body429json) := fun _ => rfl
  have hb : bodyValTruthy (.strVal body429str) = true := rfl
  simp [parseError, parseErrorStatus, parseErrorRest, hb, hex]

/-- C9 counterexample: `parseError` is not total — a throwable with an
undefined message field and no response metadata (any non-`Error` value
reaching the catch) makes `error.message.match` raise a `TypeError`. -/
theorem C9_counterexample :
    parseError { messageOpt := none } = .error JsExc.typeError := rfl

/-- C9 (amended): the error normalizer returns a `{status, message, body}`
triple and never itself throws for every error whose message field is
defined; an undefined message also stays safe when the attached response
metadata supplies a truthy status (the fallback is then never evaluated). -/
theorem C9_amended (e : JsError)
    (h : e.messageOpt.isSome = true ∨ respStatusTruthy e = true) :
    ∃ r : NormalizedError, parseError e = .ok r := by
  have hst : ∃ st : Nat, parseErrorStatus e = .ok st := by
    have hfb : e.messageOpt.isSome = true →
        ∃ st : Nat, parseErrorStatusFallback e = .ok st := by
      intro hm
      rcases hmo : e.messageOpt with _ | m
      · simp [hmo] at hm
      · unfold parseErrorStatusFallback
        rw [hmo]
        rcases hx : extractHttpStatus m with _ | k
        · exact ⟨500, by simp [hx]⟩
        · by_cases hk : k = 0
          · exact ⟨500, by simp [hx, hk]⟩
          · exact ⟨k, by simp [hx, hk]⟩
    unfold parseErrorStatus
    rcases hr : e.response.bind (fun r => r.status) with _ | n
    · rcases h with h | h
      · exact hfb h
      · unfold respStatusTruthy at h
        rw [hr] at h
        simp at h
    · by_cases hn : n = 0
      · subst hn
        simp only [bne_self_eq_false, if_neg, Bool.false_eq_true, if_false]
        rcases h with h | h
        · exact hfb h
        · unfold respStatusTruthy at h
          rw [hr] at h
          simp at h
      · refine ⟨n, ?_⟩
        simp [hn]
  obtain ⟨st, hs⟩ := hst
  exact ⟨parseErrorRest e st, by unfold parseError; rw [hs]⟩

/-- C9 witness. -/
theorem C9_witness :
    ∃ r : NormalizedError, parseError { messageOpt := some "boom" } = .ok r :=
  C9_amended { messageOpt := some "boom" } (Or.inl rfl)

/-- C8 counterexample: a request whose Authorization header is the raw
configured token without the `Bearer ` scheme carries no bearer token at
all, yet the middleware lets it proceed instead of rejecting it with 401
(`replace('Bearer ', '')` leaves the header unchanged and it compares equal
to the token). -/
theorem C8_counterexample :
    bearerSchemeToken "secret" = none ∧
    authMiddleware "secret" (some "secret") = AuthResult.proceed :=
  ⟨rfl, rfl⟩

/-- C8 (amended): with no configured token every request gets 500
regardless of the header; with a configured token, a request proceeds
exactly when the Authorization header, after deleting its first
`Bearer ` occurrence, equals the token (in particular a raw token without
the Bearer scheme is accepted), and every other request — absent header
included — is rejected with 401 before any business logic. -/
theorem C8_amended (tok : String) (h : Option String) :
    (authMiddleware tok h = AuthResult.serverError500 ↔ tok = "") ∧
    (authMiddleware tok h = AuthResult.proceed ↔
      tok ≠ "" ∧ ∃ hh, h = some hh ∧ jsReplaceFirst hh "Bearer " = tok) ∧
    (authMiddleware tok h = AuthResult.unauthorized401 ↔
      tok ≠ "" ∧ ∀ hh, h = some hh → jsReplaceFirst hh "Bearer " ≠ tok) := by
  unfold authMiddleware
  by_cases ht : tok = ""
  · simp [ht]
  · rcases h with _ | hh
    · simp [ht]
    · by_cases he : jsReplaceFirst hh "Bearer " = tok
      · simp [ht, he]
      · simp [ht, he]

/-- C8 witness. -/
theorem C8_witness : authMiddleware "tok" (some "Bearer tok") = AuthResult.proceed :=
  (C8_amended "tok" (some "Bearer tok")).2.1.mpr ⟨by decide, "Bearer tok", rfl, rfl⟩

/-- C10: through the HTTP endpoint the raw executor's distinct missing-CSRF
failure is unreachable — whenever the handler's validation dispatches to
the raw path, the envelope's ct0Token is truthy and `directRequest`
coincides with its guard-free remainder. -/
theorem C10_ct0_unreachable (env : Envelope) (resp : FetchResp)
    (h : validateDispatch env = DispatchStep.raw) :
    truthyStr env.ct0Token = true ∧ directRequest env resp = directRequestAfterCt0 resp := by
  cases hct : truthyStr env.ct0Token with
  | false =>
      exfalso
      unfold validateDispatch at h
      rw [hct] at h
      simp at h
  | true => exact ⟨rfl, by unfold directRequest; rw [hct]; rfl⟩

/-- C10 witness. -/
theorem C10_witness :
    truthyStr envC10.ct0Token = true ∧
    directRequest envC10 { ok := true } = directRequestAfterCt0 { ok := true } :=
  C10_ct0_unreachable envC10 { ok := true } rfl

theorem directRequestHeaders_lookups (hApi eH : Option Json) (a c : String) :
    lookupKey (directRequestHeaders hApi eH a c) "x-twitter-auth-type" =
      some (.str "OAuth2Session") ∧
    lookupKey (directRequestHeaders hApi eH a c) "x-csrf-token" = some (.str c) ∧
    lookupKey (directRequestHeaders hApi eH a c) "cookie" =
      some (.str ("auth_token=" ++ a ++ "; ct0=" ++ c ++ ";")) := by
  unfold directRequestHeaders
  refine ⟨?_, ?_, ?_⟩
  · rw [lookupKey_objInsert_ne _ _ _ _ (by decide), lookupKey_objInsert_ne _ _ _ _ (by decide),
      lookupKey_objInsert_self]
  · rw [lookupKey_objInsert_ne _ _ _ _ (by decide), lookupKey_objInsert_self]
  · rw [lookupKey_objInsert_self]

/-- C5: in both raw-passthrough executors, whatever header seed and
extra-header maps the caller supplies, the three authentication headers of
the outgoing request are the token-derived constants — and therefore
identical across any two calls with the same tokens; caller-supplied values
can never override them. -/
theorem C5_auth_headers_fixed (hApi1 eH1 hApi2 eH2 : Option Json) (a c : String) :
    (lookupKey (directRequestHeaders hApi1 eH1 a c) "x-twitter-auth-type" =
       some (.str "OAuth2Session") ∧
     lookupKey (directRequestHeaders hApi1 eH1 a c) "x-csrf-token" = some (.str c) ∧
     lookupKey (directRequestHeaders hApi1 eH1 a c) "cookie" =
       some (.str ("auth_token=" ++ a ++ "; ct0=" ++ c ++ ";"))) ∧
    makeDirectRequestHeaders hApi1 eH1 a c = directRequestHeaders hApi1 eH1 a c ∧
    (lookupKey (directRequestHeaders hApi1 eH1 a c) "x-twitter-auth-type" =
       lookupKey (directRequestHeaders hApi2 eH2 a c) "x-twitter-auth-type" ∧
     lookupKey (directRequestHeaders hApi1 eH1 a c) "x-csrf-token" =
       lookupKey (directRequestHeaders hApi2 eH2 a c) "x-csrf-token" ∧
     lookupKey (directRequestHeaders hApi1 eH1 a c) "cookie" =
       lookupKey (directRequestHeaders hApi2 eH2 a c) "cookie") := by
  obtain ⟨a1, b1, c1⟩ := directRequestHeaders_lookups hApi1 eH1 a c
  obtain ⟨a2, b2, c2⟩ := directRequestHeaders_lookups hApi2 eH2 a c
  exact ⟨⟨a1, b1, c1⟩, rfl, by rw [a1, a2], by rw [b1, b2], by rw [c1, c2]⟩

/-- C4 counterexample: an envelope supplying *both* `apiMethod` and
`endpoint` (together with all four required fields) violates the claimed
"exactly one" invariant, yet validation accepts it and dispatches to the
packaged path — with a successful remote call the response is 200, not a
4xx produced before any remote call. -/
theorem C4_counterexample :
    validateDispatch envC4 = DispatchStep.packaged "getUserTweets" ∧
    (handleProxy envC4 (.ok (Json.obj [])) {} { ok := true }).status = 200 :=
  ⟨rfl, rfl⟩

/-- C4 (amended): an envelope missing `authToken`, `ct0Token`, `headers` or
`flag`, or supplying *neither* `apiMethod` nor `endpoint`, is rejected by
validation with status 400 before any remote call (the response does not
depend on either remote-call oracle); supplying both dispatch fields is
not rejected — `apiMethod` takes precedence. -/
theorem C4_amended (env : Envelope)
    (h : truthyStr env.authToken = false ∨ truthyStr env.ct0Token = false ∨
         jsTruthyOpt env.headers = false ∨ jsTruthyOpt env.flag = false ∨
         (truthyStr env.apiMethod = false ∧ truthyStr env.endpoint = false)) :
    ∃ msg, validateDispatch env = .reject400 msg ∧
      ∀ cr cap rr, (handleProxy env cr cap rr).status = 400 := by
  have hv : ∃ msg, validateDispatch env = .reject400 msg := by
    by_cases h1 : (!(truthyStr env.authToken) || !(truthyStr env.ct0Token)) = true
    · exact ⟨_, by unfold validateDispatch; rw [if_pos h1]⟩
    · by_cases h2 : (!(jsTruthyOpt env.headers) || !(jsTruthyOpt env.flag)) = true
      · exact ⟨_, by unfold validateDispatch; rw [if_neg (by simp_all), if_pos h2]⟩
      · have h3 : (!(truthyStr env.apiMethod) && !(truthyStr env.endpoint)) = true := by
          simp only [Bool.or_eq_true, Bool.not_eq_true', Bool.and_eq_true] at h1 h2 ⊢
          rcases h with h | h | h | h | ⟨ha, hb⟩
          · exact absurd (Or.inl h) h1
          · exact absurd (Or.inr h) h1
          · exact absurd (Or.inl h) h2
          · exact absurd (Or.inr h) h2
          · exact ⟨ha, hb⟩
        exact ⟨_, by
          unfold validateDispatch
          rw [if_neg (by simp_all), if_neg (by simp_all), if_pos h3]⟩
  obtain ⟨msg, hm⟩ := hv
  exact ⟨msg, hm, fun cr cap rr => by unfold handleProxy; rw [hm]⟩

/-- C4 witness. -/
theorem C4_witness :
    ∃ msg, validateDispatch {} = .reject400 msg ∧
      ∀ cr cap rr, (handleProxy {} cr cap rr).status = 400 :=
  C4_amended {} (Or.inl rfl)

/-- C2 counterexample: a decode crash with a captured 200 response whose
body is the bare word `errors` contains the claim's marker `errors`, so per
the claim the call must fail normally — but the code checks for the quoted
form `"errors"`, finds nothing, and succeeds with the neutral empty
result. -/
theorem C2_counterexample :
    crashSignature (crashErrC2.messageOpt.getD "") = true ∧
    capC2.status = some 200 ∧
    hasSubstr "errors" "errors" = true ∧
    invokeMethod "getUserTweets" capC2 (.error crashErrC2) = .ok Json.null :=
  ⟨rfl, rfl, by decide, rfl⟩

/-- C2 (amended): for a supported method whose underlying call throws a
crash-signature error, the invoker succeeds with the neutral empty result
exactly when the capture shows status 200 with a non-empty readable body
preview (first 500 characters) free of the code's markers — the quoted JSON
keys `"errors"` and `"code"` and the bare words `suspended` and `locked`;
in every other case of such a crash it fails normally. -/
theorem C2_amended (m : String) (cap : Capture) (e : JsError)
    (hm : m ∈ apiMethodNames)
    (hc : crashSignature (e.messageOpt.getD "") = true) :
    (invokeMethod m cap (.error e) = .ok Json.null ↔ heuristicFires cap = true) ∧
    (heuristicFires cap = false → ∃ e', invokeMethod m cap (.error e) = .error e') := by
  have hred : invokeMethod m cap (.error e) = invokeMethodCrash (e.messageOpt.getD "") cap := by
    unfold invokeMethod
    simp [hm, hc]
  rw [hred]
  generalize e.messageOpt.getD "" = msg
  unfold invokeMethodCrash
  obtain ⟨st, stT, u, cl⟩ := cap
  rcases st with _ | s
  · rcases cl with _ | cl₂ <;> simp [crashDiag, heuristicFires]
  · by_cases hs : s = 200
    · subst hs
      rcases cl with _ | cl₂
      · simp [crashDiag, heuristicFires]
      · rcases cl₂ with _ | txt
        · simp [crashDiag, heuristicFires]
        · simp only [crashDiag, heuristicFires]
          by_cases hemp : strTake txt 500 = ""
          · simp [hemp]
          · by_cases hind : hasErrorIndicator (strTake txt 500) = true
            · simp [hemp, hind]
            · simp only [Bool.not_eq_true] at hind
              simp [hemp, hind]
    · have hne : (some s == some 200) = false := by simp [hs]
      rcases cl with _ | cl₂
      · simp [crashDiag, heuristicFires, hs]
      · rcases cl₂ with _ | txt <;> simp [crashDiag, heuristicFires, hs, hne]

/-- C2 witness. -/
theorem C2_witness :
    invokeMethod "getUserTweets" capC2w (.error crashErrC2) = .ok Json.null :=
  (C2_amended "getUserTweets" capC2w crashErrC2 (by decide) rfl).1.mpr rfl

/-- C3 counterexample: a well-formed envelope naming the unsupported method
`fooMethod` produces an HTTP 500 response — a server fault, not the claimed
4xx client error (the thrown unsupported-method error carries no status and
the normalizer defaults to 500). -/
theorem C3_counterexample :
    (handleProxy envC3 (.ok Json.null) {} { ok := true }).status = 500 := rfl

/-- C3 (amended): for every well-formed envelope naming a method outside
the registry (one without an `HTTP <digits>` pattern in it), the response
status is the normalizer's default 500 — never a 4xx — and the error text
names the offending method identifier. -/
theorem C3_amended (env : Envelope) (m : String) (cr : Except JsError Json)
    (cap : Capture) (rr : FetchResp)
    (hm : env.apiMethod = some m) (hne : m ≠ "")
    (ha : truthyStr env.authToken = true) (hc : truthyStr env.ct0Token = true)
    (hh : jsTruthyOpt env.headers = true) (hf : jsTruthyOpt env.flag = true)
    (hns : m ∉ apiMethodNames)
    (hre : extractHttpStatus ("不支持的API方法: " ++ m) = none) :
    (handleProxy env cr cap rr).status = 500 ∧
    hasSubstr (((handleProxy env cr cap rr).error).getD "") m = true := by
  have htm : truthyStr env.apiMethod = true := by
    rw [hm]
    simp [truthyStr, hne]
  have hvd : validateDispatch env = .packaged m := by
    unfold validateDispatch
    rw [ha, hc, hh, hf, htm, hm]
    simp
  have hinv : invokeMethod m cap cr = .error { messageOpt := some ("不支持的API方法: " ++ m) } := by
    unfold invokeMethod
    simp [hns]
  have hmsg : ("不支持的API方法: " ++ m) ≠ "" :=
    append_ne_empty_left m (by decide)
  have hpe : parseError { messageOpt := some ("不支持的API方法: " ++ m) } =
      .ok ⟨500, "不支持的API方法: " ++ m, Json.null⟩ := by
    unfold parseError parseErrorStatus parseErrorStatusFallback parseErrorRest
    simp [hre, jsOrStr, hmsg]
  have hlab : jsOrStr env.apiMethod (jsOrStr env.endpoint "unknown") = m := by
    rw [hm]
    simp [jsOrStr, hne]
  have hfull : handleProxy env cr cap rr =
      { status := 500, success := false,
        error := some ("[" ++ m ++ "] " ++ ("不支持的API方法: " ++ m)),
        statusCode := some 500 } := by
    unfold handleProxy
    rw [hlab, hvd]
    simp only [hinv]
    unfold proxyErrorResponse
    rw [hpe]
    rfl
  rw [hfull]
  refine ⟨rfl, ?_⟩
  rw [hasSubstr_iff]
  show m.toList <:+: ("[" ++ m ++ "] " ++ ("不支持的API方法: " ++ m)).toList
  refine ⟨("[" ++ m ++ "] " ++ "不支持的API方法: ").toList, [], ?_⟩
  simp [strToList_eq_data, String.data_append]

/-- C3 witness. -/
theorem C3_witness :
    (handleProxy envC3 (.ok (Json.obj [])) {} { ok := false }).status = 500 ∧
    hasSubstr (((handleProxy envC3 (.ok (Json.obj [])) {} { ok := false }).error).getD "")
      "fooMethod" = true :=
  C3_amended envC3 "fooMethod" (.ok (Json.obj [])) {} { ok := false }
    rfl (by decide) rfl rfl rfl rfl (by decide) rfl

theorem data_prefix_append (a b : String) : a.data <+: (a ++ b).data := by
  rw [String.data_append]
  exact List.prefix_append _ _

theorem appendQuery_prefix (base ep : String) (qp : Option Json) :
    base.data <+: (appendQuery (base ++ ep) qp).data := by
  unfold appendQuery
  cases h : jsTruthyOpt qp
  · simp only [Bool.false_eq_true, if_false]
    exact data_prefix_append _ _
  · simp only [if_true]
    by_cases hq : urlSearchParamsToString (spreadPairs (qp.getD .null)) = ""
    · simp only [hq, if_pos rfl]
      exact data_prefix_append _ _
    · simp only [if_neg hq]
      simp only [String.data_append]
      simp only [List.append_assoc]
      exact List.prefix_append _ _

/-- C6 counterexample: the plain serverless variant's raw executor has no
routing rule — for an endpoint on the platform-internal API surface it
still constructs a REST-origin URL, not a web-origin one. -/
theorem C6_counterexample :
    strStartsWith "/i/api/graphql/q" "/i/api/" = true ∧
    directRequestUrlNoRoute "/i/api/graphql/q" none = "https://api.x.com/i/api/graphql/q" ∧
    ¬ ("https://x.com".data <+: (directRequestUrlNoRoute "/i/api/graphql/q" none).data) := by
  exact ⟨rfl, rfl, by decide⟩

/-- C6 (amended): the hardened variant's raw executor targets the web
origin for endpoints beginning with the platform-internal prefix `/i/api/`
and the REST origin otherwise; the plain serverless variant's raw executor
always targets the REST origin, whatever the endpoint. -/
theorem C6_amended (ep : String) (qp : Option Json) :
    (strStartsWith ep "/i/api/" = true →
      "https://x.com".data <+: (directRequestUrl ep qp).data) ∧
    (strStartsWith ep "/i/api/" = false →
      "https://api.x.com".data <+: (directRequestUrl ep qp).data) ∧
    "https://api.x.com".data <+: (directRequestUrlNoRoute ep qp).data := by
  refine ⟨fun h => ?_, fun h => ?_, ?_⟩
  · unfold directRequestUrl
    rw [h]
    simpa using appendQuery_prefix "https://x.com" ep qp
  · unfold directRequestUrl
    rw [h]
    simpa using appendQuery_prefix "https://api.x.com" ep qp
  · exact appendQuery_prefix "https://api.x.com" ep qp

/-- C6 witness. -/
theorem C6_witness :
    "https://x.com".data <+: (directRequestUrl "/i/api/graphql/q" none).data ∧
    "https://api.x.com".data <+: (directRequestUrl "/1.1/statuses/update.json" none).data ∧
    "https://api.x.com".data <+: (directRequestUrlNoRoute "/i/api/graphql/q" none).data :=
  ⟨(C6_amended "/i/api/graphql/q" none).1 rfl,
   (C6_amended "/1.1/statuses/update.json" none).2.1 rfl,
   (C6_amended "/i/api/graphql/q" none).2.2⟩

theorem takeWhile_append_head_neg {p : Char → Bool} {l₁ l₂ : List Char}
    (h₁ : ∀ a ∈ l₁, p a = true) (c : Char) (hc : p c = false) :
    (l₁ ++ c :: l₂).takeWhile p = l₁ := by
  rw [List.takeWhile_append_of_pos h₁, List.takeWhile_cons, hc]
  simp

theorem dropWhile_append_head_neg {p : Char → Bool} {l₁ l₂ : List Char}
    (h₁ : ∀ a ∈ l₁, p a = true) (c : Char) (hc : p c = false) :
    (l₁ ++ c :: l₂).dropWhile p = c :: l₂ := by
  rw [List.dropWhile_append_of_pos h₁, List.dropWhile_cons, hc]
  simp

/-- Correctness of the `new URL` model on a well-formed long https URL:
origin and pathname are recovered exactly, the query is dropped. -/
theorem urlOriginPathname_spec (host ps q : List Char)
    (hh : host ≠ []) (hhs : ∀ ch ∈ host, ch ≠ '/')
    (hp : ∀ ch ∈ ps, ch ≠ '?' ∧ ch ≠ '#') :
    urlOriginPathname (String.mk ("https://".toList ++ (host ++ '/' :: (ps ++ '?' :: q)))) =
      some ("https://" ++ String.mk host, String.mk ('/' :: ps)) := by
  have hu : (String.mk ("https://".toList ++ (host ++ '/' :: (ps ++ '?' :: q)))).toList =
      "https://".toList ++ (host ++ '/' :: (ps ++ '?' :: q)) := rfl
  have hpre : "https://".toList.isPrefixOf
      (String.mk ("https://".toList ++ (host ++ '/' :: (ps ++ '?' :: q)))).toList = true := by
    rw [hu]
    exact List.isPrefixOf_iff_prefix.mpr (List.prefix_append _ _)
  unfold urlOriginPathname
  rw [hpre]
  simp only [if_true]
  rw [hu, List.drop_left' (by rfl)]
  unfold urlParseTail
  have hhs' : ∀ a ∈ host, (a != '/') = true := by
    intro a ha
    simpa using hhs a ha
  have htw : (host ++ '/' :: (ps ++ '?' :: q)).takeWhile (fun c => c != '/') = host :=
    takeWhile_append_head_neg hhs' '/' (by decide)
  have hdw : (host ++ '/' :: (ps ++ '?' :: q)).dropWhile (fun c => c != '/') =
      '/' :: (ps ++ '?' :: q) :=
    dropWhile_append_head_neg hhs' '/' (by decide)
  have hhe : host.isEmpty = false := by
    cases host
    · exact absurd rfl hh
    · rfl
  have hp' : ∀ a ∈ ps, ((a != '?' && a != '#') : Bool) = true := by
    intro a ha
    have := hp a ha
    simp [this.1, this.2]
  have htp : ('/' :: (ps ++ '?' :: q)).takeWhile (fun c => c != '?' && c != '#') = '/' :: ps := by
    rw [List.takeWhile_cons]
    simp only [show (('/' : Char) != '?' && ('/' : Char) != '#') = true from rfl, if_true]
    rw [takeWhile_append_head_neg hp' '?' (by decide)]
  simp only [htw, hdw, hhe, htp, Bool.false_eq_true, if_false, List.isEmpty_cons]

set_option maxRecDepth 16384 in
/-- C7 counterexample: the raw-passthrough executor's error payload carries
the fetch response's URL verbatim — for a captured URL of more than 200
characters the surfaced URL is untruncated, has no redaction marker, and
still contains the query string with its secret. -/
theorem C7_counterexample :
    200 < urlC7.length ∧
    (directRequestFail respC7).response.map ErrResponse.url = some (some urlC7) ∧
    hasSubstr urlC7 "secret=hunter2" = true ∧
    hasSubstr urlC7 "[参数已省略]" = false := by
  exact ⟨by decide, rfl, by decide, by decide⟩

/-- C7 (amended): only the packaged-method invoker truncates — a captured
URL longer than 200 characters that parses as a well-formed https URL is
replaced by origin + pathname + the redaction marker, losing the query
string; the raw-passthrough executor surfaces the response's URL verbatim
in its error payload, untruncated. -/
theorem C7_amended :
    (∀ (host ps q : List Char), host ≠ [] → (∀ ch ∈ host, ch ≠ '/') →
      (∀ ch ∈ ps, ch ≠ '?' ∧ ch ≠ '#') →
      (String.mk ("https://".toList ++ (host ++ '/' :: (ps ++ '?' :: q)))).length > 200 →
      simplifyUrl (some (String.mk ("https://".toList ++ (host ++ '/' :: (ps ++ '?' :: q))))) =
        some ("https://" ++ String.mk host ++ String.mk ('/' :: ps) ++ "?[参数已省略]")) ∧
    (∀ resp : FetchResp,
      (directRequestFail resp).response.map ErrResponse.url = some (some resp.url)) := by
  constructor
  · intro host ps q hh hhs hp hlen
    have hspec := urlOriginPathname_spec host ps q hh hhs hp
    simp only [simplifyUrl]
    rw [if_pos hlen, hspec]
  · intro resp
    rfl

set_option maxRecDepth 16384 in
/-- C7 witness. -/
theorem C7_witness :
    simplifyUrl (some (String.mk ("https://".toList ++
        ("api.x.com".toList ++ '/' :: (List.replicate 190 'a' ++ '?' :: "secret=hunter2".toList))))) =
      some ("https://" ++ String.mk "api.x.com".toList ++
        String.mk ('/' :: List.replicate 190 'a') ++ "?[参数已省略]") :=
  C7_amended.1 "api.x.com".toList (List.replicate 190 'a') "secret=hunter2".toList
    (by decide) (by decide) (by decide) (by decide)

end MonitorProxy
